import Mathlib

/-!
Verification of the DNA fingerprinting simulation backend
(`src/backend/app.py`) against its natural-language specification.

DNA sequences are modelled as `List Char`, Python string slicing as
`pySlice` (drop/take), and Python's stable `sorted` as a structurally
recursive insertion sort `stableSort` (Python's sort is stable, and a
stable sort is extensionally determined by its comparison, so insertion
sort is an exact model).  The Flask request handler is modelled as a pure
function from a request record, a resolution of the random choices used
by the sequence generator, and the current timestamp string, to a result
together with the list of image files written (the observable filesystem
effect of `cv2.imwrite`).
-/

/-- The fixed enzyme table `ENZYMES` from `app.py`. -/
def ENZYMES : List (String × String) :=
  [("EcoRI", "GAATTC"),
   ("HindIII", "AAGCTT"),
   ("BamHI", "GGATCC"),
   ("PstI", "CTGCAG")]

/-- The fixed ladder `DNA_LADDER` from `app.py`. -/
def DNA_LADDER : List Nat := [1000, 500, 200, 100, 50]

/-- `ENZYMES.get(enzyme, "")`: recognition sequence of a named enzyme,
empty for names absent from the table. -/
def enzymeSeq (name : String) : List Char :=
  match ENZYMES.find? (fun p => p.1 == name) with
  | some p => p.2.toList
  | none => []

/-- Insert `a` into `l` in front of the first element `b` with `le a b`.
Helper for the insertion-sort model of Python's stable `sorted`. -/
def insertDesc (le : List Char → List Char → Bool) (a : List Char) :
    List (List Char) → List (List Char)
  | [] => [a]
  | b :: bs => if le a b then a :: b :: bs else b :: insertDesc le a bs

/-- Stable insertion sort, modelling Python's `sorted` for fragments. -/
def stableSort (le : List Char → List Char → Bool) :
    List (List Char) → List (List Char)
  | [] => []
  | a :: as => insertDesc le a (stableSort le as)

/-- Insert a number into an ascending list (for `sorted` on cut positions). -/
def insertNat (a : Nat) : List Nat → List Nat
  | [] => [a]
  | b :: bs => if a ≤ b then a :: b :: bs else b :: insertNat a bs

/-- Ascending sort of cut positions, modelling `sorted` on the
deduplicated cut set. -/
def sortNat : List Nat → List Nat
  | [] => []
  | a :: as => insertNat a (sortNat as)

/-- `key=len, reverse=True`: the comparison used for the final fragment
sort in `cut_dna`. -/
def lenDescLe (a b : List Char) : Bool := decide (b.length ≤ a.length)

/-- The list comprehension
`[i + len(enzyme_seq) for i in range(len(sequence)) if sequence.startswith(enzyme_seq, i)]`. -/
def cutPositionsFor (s pat : List Char) : List Nat :=
  ((List.range s.length).filter (fun i => pat.isPrefixOf (s.drop i))).map
    (fun i => i + pat.length)

/-- The `cut_positions` accumulation loop of `cut_dna`: for each enzyme,
look up its recognition sequence (`""` when absent) and, when it is
non-empty, extend the accumulator with its match positions. -/
def rawCutPositions (s : List Char) (enzymes : List String) : List Nat :=
  enzymes.foldl
    (fun acc e =>
      let eseq := enzymeSeq e
      if eseq.isEmpty then acc else acc ++ cutPositionsFor s eseq)
    []

/-- `sorted(list(set(cut_positions)))`: the deduplicated, ascending cut set. -/
def cut_positions (s : List Char) (enzymes : List String) : List Nat :=
  sortNat ((rawCutPositions s enzymes).dedup)

/-- Python slice `s[i:j]` for `0 ≤ i`, `0 ≤ j` (empty when `j ≤ i`). -/
def pySlice (s : List Char) (i j : Nat) : List Char :=
  (s.drop i).take (j - i)

/-- The fragment comprehension of `cut_dna`:
`[sequence[i:j] for i, j in zip([0] + cut_positions, cut_positions + [None]) if sequence[i:j]]`.
The final `None` bound is `s.length` (every cut position is at most the
sequence length, so the two slices agree). -/
def fragments_of (s : List Char) (cuts : List Nat) : List (List Char) :=
  (((0 :: cuts).zip (cuts ++ [s.length])).map (fun p => pySlice s p.1 p.2)).filter
    (fun f => !f.isEmpty)

/-- `cut_dna(sequence, enzymes)` for a list argument.  (The Python
function also accepts a bare string, which it wraps into a one-element
list; the request handler performs the same wrapping via `normEnzymes`
below, so the list form is the one reached in every call.) -/
def cut_dna (s : List Char) (enzymes : List String) : List (List Char) :=
  stableSort lenDescLe (fragments_of s (cut_positions s enzymes))

/-- `bases = ['A', 'T', 'G', 'C']` in `generate_dna_sequence`. -/
def BASES : List Char := ['A', 'T', 'G', 'C']

/-- One iteration's worth of random draws in `generate_dna_sequence`:
`insertSite` is `random.random() < 0.15`, `enzymeIdx` resolves
`random.choice(list(ENZYMES.keys()))`, `charIdx` resolves the *outer*
`random.choice` applied to the chosen recognition *string* (which picks a
single character of it), and `baseIdx` resolves `random.choice(bases)`. -/
structure GenChoice where
  insertSite : Bool
  enzymeIdx : Fin 4
  charIdx : Fin 6
  baseIdx : Fin 4

/-- The character contributed by one iteration of the generator:
`random.choice(ENZYMES[random.choice(list(ENZYMES.keys()))]) if random.random() < 0.15 else random.choice(bases)`.
Note `random.choice` of a string returns one character, so the
site branch contributes a single character as well.  (All recognition
sequences have length 6 and the out-of-range defaults are never used.) -/
def genChar (c : GenChoice) : Char :=
  if c.insertSite then
    (((ENZYMES.map (fun p => p.2)).getD c.enzymeIdx.val "").toList).getD c.charIdx.val 'A'
  else BASES.getD c.baseIdx.val 'A'

/-- `generate_dna_sequence(length)`, with the random stream made explicit
as an oracle giving the draws of each iteration of `for _ in range(length)`. -/
def generate_dna_sequence (length : Nat) (oracle : Nat → GenChoice) : List Char :=
  (List.range length).map (fun i => genChar (oracle i))

/-- A raster image: the NumPy array underlying the gel rendering.
`pixel r c ch` is the value at row `r`, column `c`, channel `ch`. -/
structure GelImage where
  height : Nat
  width : Nat
  channels : Nat
  pixel : Nat → Nat → Nat → Nat

/-- `np.ones((400, 600, 3), dtype=np.uint8) * 255`. -/
def blankCanvas : GelImage :=
  { height := 400, width := 600, channels := 3, pixel := fun _ _ _ => 255 }

/-- `cv2.rectangle(img, (x1, y1), (x2, y2), color, -1)`: fill the
inclusive rectangle; pixels outside the canvas are silently clipped
(the pixel function is simply never sampled there). -/
def drawRect (img : GelImage) (x1 y1 x2 y2 : Nat) (color : Nat × Nat × Nat) :
    GelImage :=
  { img with
    pixel := fun r c ch =>
      if x1 ≤ c ∧ c ≤ x2 ∧ y1 ≤ r ∧ r ≤ y2 then
        match ch with
        | 0 => color.1
        | 1 => color.2.1
        | _ => color.2.2
      else img.pixel r c ch }

/-- `cv2.putText(img, text, org, ...)`.  Glyph rasterization happens
inside the external OpenCV library, not in this repository; only its
canvas-shape-preserving nature is modelled (no claim concerns the
rendered text pixels). -/
def putText (img : GelImage) (text : String) (org : Nat × Nat) : GelImage :=
  let _ := text
  let _ := org
  img

/-- One iteration of the experimental-band loop of `generate_gel_image`:
band height `max(5, int(30 * (len(frag)/max_len)))` (the float truncation
is modelled by natural floor division, which agrees except for
float-rounding corner cases that no claim depends on), band rectangle and
its base-pair annotation. -/
def drawBand (max_len : Nat) (img : GelImage) (p : Nat × List Char) : GelImage :=
  let i := p.1
  let frag := p.2
  let band_height := Nat.max 5 ((30 * frag.length) / max_len)
  let y_pos := 100 + i * 40
  putText (drawRect img 150 y_pos 300 (y_pos + band_height) (0, 0, 150))
    (toString frag.length ++ "bp") (310, y_pos + band_height / 2)

/-- One iteration of the ladder loop of `generate_gel_image`. -/
def drawLadderBand (img : GelImage) (p : Nat × Nat) : GelImage :=
  let i := p.1
  let size := p.2
  let y_pos := 100 + i * 50
  putText (drawRect img 400 y_pos 450 (y_pos + 10) (0, 0, 0))
    (toString size ++ "bp") (460, y_pos + 5)

/-- `generate_gel_image(fragments, enzymes, ladder)` up to the file write
(the filename/writing is handled by the request-handler model).  Returns
`none` exactly when the Python code would raise `ZeroDivisionError`:
`fragments` non-empty with `max_len = 0`, i.e. every fragment empty
(`len(frag)/max_len` divides by zero). -/
def generate_gel_image (fragments : List (List Char)) (enzymes : List String)
    (ladder : List Nat) : Option GelImage :=
  let img0 := blankCanvas
  let img1 := drawRect img0 50 50 550 350 (240, 240, 240)
  let img2 := drawRect img1 80 70 120 90 (200, 200, 200)
  let img3 := drawRect img2 480 70 520 90 (200, 200, 200)
  let exp : Option GelImage :=
    if fragments.isEmpty then some img3
    else
      let max_len := (fragments.map List.length).foldl Nat.max 0
      if max_len = 0 then none
      else some (fragments.enum.foldl (drawBand max_len) img3)
  match exp with
  | none => none
  | some img4 =>
    let img5 := ladder.enum.foldl drawLadderBand img4
    let img6 := putText img5 (String.intercalate "+" enzymes ++ " Digest") (150, 380)
    let img7 := putText img6 "DNA Ladder" (400, 380)
    some img7

/-- The dimension triple (width, height, channels) of an optional image. -/
def gelDims : Option GelImage → Option (Nat × Nat × Nat)
  | none => none
  | some img => some (img.width, img.height, img.channels)

/-- `f"gel_{datetime.now().strftime(...)}.png"`, with the formatted
timestamp abstracted as a string parameter. -/
def gel_filename (now : String) : String := "gel_" ++ now ++ ".png"

/-- The JSON request body of `POST /simulate_fingerprint`:
`data.get('dna_sequence', '')`, `data.get('enzyme', 'EcoRI')` (a bare
string or a list), `data.get('length', 100)`. -/
structure SimRequest where
  dna_sequence : Option String
  enzyme : Option (Sum String (List String))
  length : Option Nat

/-- The success payload of `simulate_fingerprint`. -/
structure OkBody where
  dna_sequence : List Char
  fragments : List (List Char)
  gel_image : String
  enzyme_used : List String
  ladder_sizes : List Nat
deriving DecidableEq

/-- A handler outcome: either `jsonify({"error": msg}), status` or the
success JSON body. -/
inductive SimResult where
  | err (status : Nat) (msg : String)
  | ok (body : OkBody)
deriving DecidableEq

/-- Whether a handler outcome is the success case. -/
def SimResult.isOk : SimResult → Bool
  | .ok _ => true
  | _ => false

/-- A handler outcome together with the image files written while
producing it (the observable effect of `cv2.imwrite` in
`generate_gel_image`). -/
structure HandlerOutput where
  result : SimResult
  writes : List (String × GelImage)

/-- `data.get('dna_sequence', '').upper().replace(" ", "")` as a
character list.  (`Char.toUpper` matches Python `str.upper` on the ASCII
inputs that can subsequently pass validation.) -/
def normalizeSeq (req : SimRequest) : List Char :=
  (((req.dna_sequence.getD "").toList).map Char.toUpper).filter (fun c => !(c == ' '))

/-- `all(c in 'ATGC' for c in dna_sequence)`. -/
def validSeq (s : List Char) : Bool :=
  s.all (fun c => (['A', 'T', 'G', 'C']).contains c)

/-- `enzymes = [enzyme_input] if isinstance(enzyme_input, str) else enzyme_input`,
where `enzyme_input = data.get('enzyme', 'EcoRI')`. -/
def normEnzymes (req : SimRequest) : List String :=
  match req.enzyme.getD (Sum.inl "EcoRI") with
  | Sum.inl s => [s]
  | Sum.inr l => l

/-- The invalid-enzyme comprehension
`[e for e in enzymes if e not in ENZYMES]`. -/
def invalidEnzymesOf (enzymes : List String) : List String :=
  enzymes.filter (fun e => !(ENZYMES.any (fun p => p.1 == e)))

/-- The tail of the handler after the DNA sequence has been settled:
enzyme validation, digestion, rendering, and the success response. -/
def digestAndRender (dna : List Char) (enzymes : List String) (now : String) :
    HandlerOutput :=
  let invalid_enzymes := invalidEnzymesOf enzymes
  if !invalid_enzymes.isEmpty then
    { result := .err 400 ("Invalid enzymes: " ++ String.intercalate ", " invalid_enzymes)
      writes := [] }
  else
    let fragments := cut_dna dna enzymes
    match generate_gel_image fragments enzymes DNA_LADDER with
    | none => { result := .err 500 "ZeroDivisionError", writes := [] }
    | some img =>
      let filename := gel_filename now
      { result := .ok
          { dna_sequence := dna
            fragments := fragments
            gel_image := filename
            enzyme_used := enzymes
            ladder_sizes := DNA_LADDER }
        writes := [(filename, img)] }

/-- The sequence the handler ends up digesting: the normalized request
sequence, or a generated one when it is empty. -/
def usedSeq (req : SimRequest) (oracle : Nat → GenChoice) : List Char :=
  if (normalizeSeq req).isEmpty then
    generate_dna_sequence (req.length.getD 100) oracle
  else normalizeSeq req

/-- `simulate_fingerprint`: validation of the sequence, then of the
enzymes, then digestion and rendering.  `oracle` resolves the random
draws of `generate_dna_sequence`, `now` the timestamp used for the
filename.  (The unreachable division-by-zero inside the renderer is
surfaced as a 500 so the model stays total; `cut_dna` never returns an
empty fragment, so that branch is never taken.) -/
def simulate_fingerprint (req : SimRequest) (oracle : Nat → GenChoice)
    (now : String) : HandlerOutput :=
  let seq0 := normalizeSeq req
  if seq0.isEmpty then
    digestAndRender (generate_dna_sequence (req.length.getD 100) oracle)
      (normEnzymes req) now
  else if !(validSeq seq0) then
    { result := .err 400 "Invalid DNA sequence (only A, T, G, C allowed)"
      writes := [] }
  else
    digestAndRender seq0 (normEnzymes req) now

/-- `pat` occurs as a substring of `s` (there is a start index at which
`pat` matches), phrased over the finitely many candidate indices so the
predicate is decidable. -/
def occursIn (pat s : List Char) : Prop :=
  ((List.range (s.length + 1)).any (fun i => pat.isPrefixOf (s.drop i))) = true

instance (pat s : List Char) : Decidable (occursIn pat s) := by
  unfold occursIn
  infer_instance

/-- A sequence ending exactly in a recognition site. -/
def exGAATTC : List Char := ['G', 'A', 'A', 'T', 'T', 'C']

/-- A fixed resolution of the generator's random draws (no site insertions). -/
def defaultOracle : Nat → GenChoice := fun _ => ⟨false, 0, 0, 0⟩

/-- A resolution in which every draw takes the site branch. -/
def siteOracle : Nat → GenChoice := fun _ => ⟨true, 0, 0, 0⟩

/-- Request with an invalid sequence and an invalid enzyme. -/
def reqBadSeqBadEnz : SimRequest := ⟨some "AXGT", some (Sum.inl "Foo"), none⟩

/-- Request with a valid sequence and an invalid enzyme. -/
def reqGoodSeqBadEnz : SimRequest := ⟨some "AT", some (Sum.inl "Foo"), none⟩

/-- Request with an invalid sequence and the enzyme field omitted. -/
def reqBadSeqNoEnz : SimRequest := ⟨some "AXGT", none, none⟩

/-- Request with a valid sequence and the enzyme field omitted. -/
def reqGoodSeqNoEnz : SimRequest := ⟨some "AT", none, none⟩

/-- Another invalid-sequence request (for the no-writes witness). -/
def reqBadSeqXY : SimRequest := ⟨some "XY", none, none⟩

/-! ## Helper lemmas: sorting -/

lemma mem_insertNat {a x : Nat} {l : List Nat} :
    x ∈ insertNat a l ↔ x = a ∨ x ∈ l := by
  induction l with
  | nil => simp [insertNat]
  | cons b bs ih =>
    by_cases hab : a ≤ b
    · simp [insertNat, hab]
    · simp [insertNat, hab, ih]
      tauto

lemma mem_sortNat {x : Nat} {l : List Nat} : x ∈ sortNat l ↔ x ∈ l := by
  induction l with
  | nil => simp [sortNat]
  | cons a as ih => simp [sortNat, mem_insertNat, ih]

lemma pairwise_insertNat {a : Nat} {l : List Nat}
    (h : l.Pairwise (· ≤ ·)) : (insertNat a l).Pairwise (· ≤ ·) := by
  induction l with
  | nil => simp [insertNat]
  | cons b bs ih =>
    rw [List.pairwise_cons] at h
    obtain ⟨hb, hbs⟩ := h
    by_cases hab : a ≤ b
    · rw [insertNat, if_pos hab, List.pairwise_cons]
      refine ⟨?_, List.pairwise_cons.mpr ⟨hb, hbs⟩⟩
      intro x hx
      rcases List.mem_cons.mp hx with rfl | hx
      · exact hab
      · exact le_trans hab (hb x hx)
    · rw [insertNat, if_neg hab, List.pairwise_cons]
      refine ⟨?_, ih hbs⟩
      intro x hx
      rcases mem_insertNat.mp hx with rfl | hx
      · omega
      · exact hb x hx

lemma pairwise_sortNat (l : List Nat) : (sortNat l).Pairwise (· ≤ ·) := by
  induction l with
  | nil => simp [sortNat]
  | cons a as ih => exact pairwise_insertNat ih

lemma mem_insertDesc {le : List Char → List Char → Bool} {a x : List Char}
    {l : List (List Char)} : x ∈ insertDesc le a l ↔ x = a ∨ x ∈ l := by
  induction l with
  | nil => simp [insertDesc]
  | cons b bs ih =>
    by_cases hab : le a b
    · simp [insertDesc, hab]
    · simp [insertDesc, hab, ih]
      tauto

lemma mem_stableSort {le : List Char → List Char → Bool} {x : List Char}
    {l : List (List Char)} : x ∈ stableSort le l ↔ x ∈ l := by
  induction l with
  | nil => simp [stableSort]
  | cons a as ih => simp [stableSort, mem_insertDesc, ih]

lemma pairwise_insertDesc_len {a : List Char} {l : List (List Char)}
    (h : l.Pairwise (fun f g => g.length ≤ f.length)) :
    (insertDesc lenDescLe a l).Pairwise (fun f g => g.length ≤ f.length) := by
  induction l with
  | nil => simp [insertDesc]
  | cons b bs ih =>
    rw [List.pairwise_cons] at h
    obtain ⟨hb, hbs⟩ := h
    by_cases hab : lenDescLe a b
    · rw [insertDesc, if_pos hab, List.pairwise_cons]
      have hab' : b.length ≤ a.length := by
        simpa [lenDescLe] using hab
      refine ⟨?_, List.pairwise_cons.mpr ⟨hb, hbs⟩⟩
      intro x hx
      rcases List.mem_cons.mp hx with rfl | hx
      · exact hab'
      · exact le_trans (hb x hx) hab'
    · rw [insertDesc, if_neg hab, List.pairwise_cons]
      have hab' : a.length ≤ b.length := by
        simp [lenDescLe] at hab
        omega
      refine ⟨?_, ih hbs⟩
      intro x hx
      rcases mem_insertDesc.mp hx with rfl | hx
      · exact hab'
      · exact hb x hx

lemma pairwise_stableSort_len (l : List (List Char)) :
    (stableSort lenDescLe l).Pairwise (fun f g => g.length ≤ f.length) := by
  induction l with
  | nil => simp [stableSort]
  | cons a as ih => exact pairwise_insertDesc_len ih

lemma filter_len_insertDesc (n : Nat) (a : List Char) (l : List (List Char)) :
    (insertDesc lenDescLe a l).filter (fun f => f.length == n)
      = if a.length == n then a :: l.filter (fun f => f.length == n)
        else l.filter (fun f => f.length == n) := by
  induction l with
  | nil =>
    by_cases ha : a.length = n
    · have ha' : (a.length == n) = true := beq_iff_eq.mpr ha
      simp [insertDesc, List.filter, ha']
    · have ha' : (a.length == n) = false := beq_eq_false_iff_ne.mpr ha
      simp [insertDesc, List.filter, ha']
  | cons b bs ih =>
    by_cases hab : lenDescLe a b
    · rw [insertDesc, if_pos hab]
      by_cases ha : a.length = n <;> by_cases hb : b.length = n <;>
        first
        | (have ha' : (a.length == n) = true := beq_iff_eq.mpr (by omega)
           have hb' : (b.length == n) = true := beq_iff_eq.mpr (by omega)
           simp [List.filter, ha', hb'])
        | (have ha' : (a.length == n) = true := beq_iff_eq.mpr (by omega)
           have hb' : (b.length == n) = false := beq_eq_false_iff_ne.mpr (by omega)
           simp [List.filter, ha', hb'])
        | (have ha' : (a.length == n) = false := beq_eq_false_iff_ne.mpr (by omega)
           have hb' : (b.length == n) = true := beq_iff_eq.mpr (by omega)
           simp [List.filter, ha', hb'])
        | (have ha' : (a.length == n) = false := beq_eq_false_iff_ne.mpr (by omega)
           have hb' : (b.length == n) = false := beq_eq_false_iff_ne.mpr (by omega)
           simp [List.filter, ha', hb'])
    · rw [insertDesc, if_neg hab]
      have hlt : a.length < b.length := by
        simp [lenDescLe] at hab
        omega
      by_cases ha : a.length = n
      · have ha' : (a.length == n) = true := beq_iff_eq.mpr ha
        have hb' : (b.length == n) = false := beq_eq_false_iff_ne.mpr (by omega)
        simp [List.filter, ha', hb', ih]
      · have ha' : (a.length == n) = false := beq_eq_false_iff_ne.mpr ha
        by_cases hb : b.length = n
        · have hb' : (b.length == n) = true := beq_iff_eq.mpr hb
          simp [List.filter, ha', hb', ih]
        · have hb' : (b.length == n) = false := beq_eq_false_iff_ne.mpr hb
          simp [List.filter, ha', hb', ih]

lemma filter_len_stableSort (n : Nat) (l : List (List Char)) :
    (stableSort lenDescLe l).filter (fun f => f.length == n)
      = l.filter (fun f => f.length == n) := by
  induction l with
  | nil => simp [stableSort]
  | cons a as ih =>
    rw [stableSort, filter_len_insertDesc, ih]
    by_cases ha : a.length = n
    · have ha' : (a.length == n) = true := beq_iff_eq.mpr ha
      simp [List.filter, ha']
    · have ha' : (a.length == n) = false := beq_eq_false_iff_ne.mpr ha
      simp [List.filter, ha']

/-! ## Helper lemmas: cut positions and slices -/

lemma isPrefixOf_length {l1 l2 : List Char} (h : l1.isPrefixOf l2 = true) :
    l1.length ≤ l2.length := by
  induction l1 generalizing l2 with
  | nil => simp
  | cons a as ih =>
    cases l2 with
    | nil => simp [List.isPrefixOf] at h
    | cons b bs =>
      simp only [List.isPrefixOf, Bool.and_eq_true] at h
      have := ih h.2
      simp only [List.length_cons]
      omega

lemma mem_cutPositionsFor {s pat : List Char} {c : Nat}
    (h : c ∈ cutPositionsFor s pat) :
    ∃ i, i < s.length ∧ pat.isPrefixOf (s.drop i) = true ∧ c = i + pat.length := by
  unfold cutPositionsFor at h
  rw [List.mem_map] at h
  obtain ⟨i, hi, hc⟩ := h
  rw [List.mem_filter, List.mem_range] at hi
  exact ⟨i, hi.1, hi.2, hc.symm⟩

lemma cutPositionsFor_bounds {s pat : List Char} {c : Nat}
    (hpat : pat ≠ []) (h : c ∈ cutPositionsFor s pat) :
    0 < c ∧ c ≤ s.length := by
  obtain ⟨i, hi, hpre, rfl⟩ := mem_cutPositionsFor h
  have hlen : pat.length ≤ (s.drop i).length := isPrefixOf_length hpre
  rw [List.length_drop] at hlen
  have hpos : 0 < pat.length := List.length_pos.mpr hpat
  omega

lemma mem_rawCutPositions {s : List Char} {E : List String} {c : Nat}
    (h : c ∈ rawCutPositions s E) :
    ∃ pat, pat ≠ [] ∧ c ∈ cutPositionsFor s pat := by
  have haux : ∀ (E : List String) (acc : List Nat),
      c ∈ E.foldl
        (fun acc e =>
          let eseq := enzymeSeq e
          if eseq.isEmpty then acc else acc ++ cutPositionsFor s eseq)
        acc →
      c ∈ acc ∨ ∃ pat, pat ≠ [] ∧ c ∈ cutPositionsFor s pat := by
    intro E
    induction E with
    | nil => intro acc h; exact Or.inl h
    | cons e E ih =>
      intro acc h
      rw [List.foldl_cons] at h
      rcases ih _ h with hm | hfound
      · by_cases he : (enzymeSeq e).isEmpty
        · rw [show (let eseq := enzymeSeq e;
              if eseq.isEmpty then acc else acc ++ cutPositionsFor s eseq) = acc
              by simp [he]] at hm
          exact Or.inl hm
        · rw [show (let eseq := enzymeSeq e;
              if eseq.isEmpty then acc else acc ++ cutPositionsFor s eseq)
              = acc ++ cutPositionsFor s (enzymeSeq e) by simp [he]] at hm
          rcases List.mem_append.mp hm with hm | hm
          · exact Or.inl hm
          · refine Or.inr ⟨enzymeSeq e, ?_, hm⟩
            intro hnil
            rw [hnil] at he
            simp at he
      · exact Or.inr hfound
  rcases haux E [] h with hm | hfound
  · simp at hm
  · exact hfound

lemma cut_positions_bounds {s : List Char} {E : List String} {c : Nat}
    (h : c ∈ cut_positions s E) : 0 < c ∧ c ≤ s.length := by
  unfold cut_positions at h
  rw [mem_sortNat, List.mem_dedup] at h
  obtain ⟨pat, hpat, hc⟩ := mem_rawCutPositions h
  exact cutPositionsFor_bounds hpat hc

lemma cut_positions_sorted (s : List Char) (E : List String) :
    (cut_positions s E).Pairwise (· ≤ ·) :=
  pairwise_sortNat _

lemma pySlice_zero_length (s : List Char) : pySlice s 0 s.length = s := by
  simp [pySlice]

lemma pySlice_append (s : List Char) (a c n : Nat) (h1 : a ≤ c) (h2 : c ≤ n) :
    pySlice s a c ++ pySlice s c n = pySlice s a n := by
  unfold pySlice
  have hn : (c - a) + (n - c) = n - a := by omega
  rw [← hn, List.take_add]
  congr 2
  rw [List.drop_drop]
  congr 1
  omega

lemma flatten_filter_nonempty (l : List (List Char)) :
    (l.filter (fun f => !f.isEmpty)).flatten = l.flatten := by
  induction l with
  | nil => rfl
  | cons a as ih =>
    cases a with
    | nil => simpa [List.filter] using ih
    | cons c cs => simp [List.filter, ih]

lemma flatten_zip_slices (s : List Char) (cuts : List Nat) :
    ∀ (a : Nat), (a :: cuts).Pairwise (· ≤ ·) → (∀ c ∈ cuts, c ≤ s.length) →
      a ≤ s.length →
      (((a :: cuts).zip (cuts ++ [s.length])).map (fun p => pySlice s p.1 p.2)).flatten
        = pySlice s a s.length := by
  induction cuts with
  | nil =>
    intro a _ _ _
    simp
  | cons c rest ih =>
    intro a hpw hb ha
    rw [List.pairwise_cons] at hpw
    obtain ⟨hale, hpw'⟩ := hpw
    have hac : a ≤ c := hale c (List.mem_cons_self c rest)
    have hcs : c ≤ s.length := hb c (List.mem_cons_self c rest)
    have hstep : ((c :: rest) ++ [s.length]) = c :: (rest ++ [s.length]) := rfl
    rw [show ((a :: c :: rest).zip ((c :: rest) ++ [s.length]))
        = (a, c) :: ((c :: rest).zip (rest ++ [s.length])) from rfl]
    rw [List.map_cons, List.flatten_cons]
    rw [ih c hpw' (fun x hx => hb x (List.mem_cons_of_mem c hx)) hcs]
    exact pySlice_append s a c s.length hac hcs

lemma rawCutPositions_nil (E : List String) : rawCutPositions [] E = [] := by
  have haux : ∀ (E : List String) (acc : List Nat),
      E.foldl
        (fun acc e =>
          let eseq := enzymeSeq e
          if eseq.isEmpty then acc else acc ++ cutPositionsFor [] eseq)
        acc = acc := by
    intro E
    induction E with
    | nil => intro acc; rfl
    | cons e E ih =>
      intro acc
      rw [List.foldl_cons, ih]
      show (if (enzymeSeq e).isEmpty then acc
            else acc ++ cutPositionsFor [] (enzymeSeq e)) = acc
      have hcp : cutPositionsFor [] (enzymeSeq e) = [] := rfl
      rw [hcp, List.append_nil, ite_self]
  exact haux E []

/-! ## Claim theorems -/

/-- C1: for every sequence `S` over the DNA alphabet and every list of
enzyme names `E`, concatenating the fragments produced by the digestion
engine in the order the cut boundaries were applied (ascending boundary
order, before the final length-descending sort) reconstructs `S` exactly. -/
theorem C1_fragments_reconstruct (s : List Char) (E : List String) :
    (fragments_of s (cut_positions s E)).flatten = s := by
  unfold fragments_of
  rw [flatten_filter_nonempty]
  have hpw : (cut_positions s E).Pairwise (· ≤ ·) := cut_positions_sorted s E
  have hb : ∀ c ∈ cut_positions s E, c ≤ s.length :=
    fun c hc => (cut_positions_bounds hc).2
  have h0 : (0 :: cut_positions s E).Pairwise (· ≤ ·) :=
    List.Pairwise.cons (fun x _ => Nat.zero_le x) hpw
  rw [flatten_zip_slices s (cut_positions s E) 0 h0 hb (Nat.zero_le _)]
  exact pySlice_zero_length s

/-- C2 counterexample: for `S = "GAATTC"` and the enzyme `EcoRI`
(recognition sequence `GAATTC`, matching at index 0), the recorded cut
offset is `0 + 6 = 6 = length S`, which is *not* strictly below
`length S`; the claimed invariant `0 < offset < length S` fails. -/
theorem C2_counterexample :
    6 ∈ cut_positions exGAATTC ["EcoRI"] ∧ ¬ (6 < exGAATTC.length) := by
  decide

/-- C2 (amended): every offset in the deduplicated cut-position set
computed by `cut_dna` satisfies `0 < offset ≤ length S` (the upper bound
is attained when a recognition site ends exactly at the end of `S`). -/
theorem C2_offsets_in_range (s : List Char) (E : List String) :
    ∀ c ∈ cut_positions s E, 0 < c ∧ c ≤ s.length :=
  fun _ hc => cut_positions_bounds hc

/-- Witness for C2 (amended), at `S = "GAATTC"`, `E = ["EcoRI"]`, offset 6. -/
theorem C2_offsets_in_range_witness : 0 < 6 ∧ 6 ≤ exGAATTC.length :=
  C2_offsets_in_range exGAATTC ["EcoRI"] 6 (by decide)

/-- C8: digesting the empty sequence returns the empty fragment list
(zero fragments, not a single empty fragment), for every enzyme list,
including names absent from the table. -/
theorem C8_empty_sequence (E : List String) : cut_dna [] E = [] := by
  unfold cut_dna cut_positions
  rw [rawCutPositions_nil]
  rfl

/-- C5: the fragment list returned by `cut_dna` is sorted by length in
descending order, and fragments of equal length keep their relative
discovery order (the order induced by ascending cut boundaries): for each
length `n`, the sublist of fragments of length `n` is unchanged by the
final sort. -/
theorem C5_sorted_and_stable (s : List Char) (E : List String) :
    (cut_dna s E).Pairwise (fun f g => g.length ≤ f.length) ∧
    ∀ n : Nat, (cut_dna s E).filter (fun f => f.length == n)
      = (fragments_of s (cut_positions s E)).filter (fun f => f.length == n) :=
  ⟨pairwise_stableSort_len _, fun n => filter_len_stableSort n _⟩

lemma cutPositionsFor_eq_nil {s pat : List Char} (h : ¬ occursIn pat s) :
    cutPositionsFor s pat = [] := by
  unfold cutPositionsFor
  rw [List.map_eq_nil_iff, List.filter_eq_nil_iff]
  intro i hi hpre
  rw [List.mem_range] at hi
  apply h
  unfold occursIn
  rw [List.any_eq_true]
  exact ⟨i, List.mem_range.mpr (by omega), hpre⟩

lemma rawCutPositions_single {s : List Char} {e : String}
    (h : ¬ occursIn (enzymeSeq e) s) : rawCutPositions s [e] = [] := by
  unfold rawCutPositions
  rw [List.foldl_cons, List.foldl_nil]
  show (if (enzymeSeq e).isEmpty then ([] : List Nat)
        else [] ++ cutPositionsFor s (enzymeSeq e)) = []
  by_cases he : (enzymeSeq e).isEmpty
  · rw [if_pos he]
  · rw [if_neg he, List.nil_append, cutPositionsFor_eq_nil h]

/-- C4 counterexample: for the empty sequence `S = ""` and enzyme
`EcoRI`, whose recognition sequence does not occur in `S`, `cut_dna`
returns zero fragments rather than the claimed single fragment equal to
`S` (the fragment comprehension drops the empty slice). -/
theorem C4_counterexample :
    ¬ occursIn (enzymeSeq "EcoRI") ([] : List Char) ∧
    cut_dna ([] : List Char) ["EcoRI"] = [] ∧
    cut_dna ([] : List Char) ["EcoRI"] ≠ [([] : List Char)] := by
  decide

/-- C4 (amended): for every *non-empty* sequence `S` and enzyme name `e`
whose recognition sequence does not occur as a substring of `S`,
`cut_dna S [e]` returns exactly one fragment, equal to `S`. -/
theorem C4_no_site_single_fragment (s : List Char) (e : String)
    (hs : s ≠ []) (hocc : ¬ occursIn (enzymeSeq e) s) :
    cut_dna s [e] = [s] := by
  unfold cut_dna cut_positions
  rw [rawCutPositions_single hocc]
  show stableSort lenDescLe (fragments_of s []) = [s]
  have h1 : fragments_of s [] = List.filter (fun f => !f.isEmpty) [s] := by
    unfold fragments_of
    simp [pySlice_zero_length]
  rw [h1]
  have hne : (!s.isEmpty) = true := by
    cases s with
    | nil => exact absurd rfl hs
    | cons a as => rfl
  simp [List.filter, hne, stableSort, insertDesc]

/-- Witness for C4 (amended): `S = "AT"`, `e = "EcoRI"`. -/
theorem C4_no_site_single_fragment_witness :
    cut_dna (['A', 'T'] : List Char) ["EcoRI"] = [['A', 'T']] :=
  C4_no_site_single_fragment ['A', 'T'] "EcoRI" (by decide) (by decide)

lemma generate_length (n : Nat) (oracle : Nat → GenChoice) :
    (generate_dna_sequence n oracle).length = n := by
  unfold generate_dna_sequence
  rw [List.length_map, List.length_range]

/-- C3 counterexample: at requested length `n = 1` there is *no*
resolution of the random choices under which the generator returns a
sequence strictly longer than `n`: `random.choice` applied to the chosen
recognition *string* contributes a single character (not the entire
site), so the output always has exactly the requested length. -/
theorem C3_counterexample :
    ¬ ∃ oracle : Nat → GenChoice, 1 < (generate_dna_sequence 1 oracle).length := by
  rintro ⟨oracle, h⟩
  rw [generate_length] at h
  omega

/-- C3 (amended): at each of the `n` requested positions the generator
appends exactly one character — on the site branch a single character of
the chosen enzyme's recognition sequence, otherwise a random base — so
for every requested length and every resolution of the random choices the
result has exactly the requested length, and position `i` depends only on
the draws of iteration `i`. -/
theorem C3_generates_exact_length (n : Nat) (oracle : Nat → GenChoice) :
    (generate_dna_sequence n oracle).length = n ∧
    ∀ i, i < n → (generate_dna_sequence n oracle).getD i 'A' = genChar (oracle i) := by
  refine ⟨generate_length n oracle, ?_⟩
  intro i hi
  unfold generate_dna_sequence
  have hlen : i < ((List.range n).map (fun i => genChar (oracle i))).length := by
    rw [List.length_map, List.length_range]
    exact hi
  rw [List.getD_eq_getElem _ _ hlen, List.getElem_map, List.getElem_range]

/-- Witness for C3 (amended), at `n = 2` with the all-site-branch oracle. -/
theorem C3_generates_exact_length_witness :
    (generate_dna_sequence 2 siteOracle).length = 2 ∧
    (generate_dna_sequence 2 siteOracle).getD 0 'A' = genChar (siteOracle 0) :=
  ⟨(C3_generates_exact_length 2 siteOracle).1,
   (C3_generates_exact_length 2 siteOracle).2 0 (by decide)⟩

/-! ## Helper lemmas: gel renderer dimensions -/

@[simp] lemma drawRect_height (img : GelImage) (x1 y1 x2 y2 : Nat)
    (c : Nat × Nat × Nat) : (drawRect img x1 y1 x2 y2 c).height = img.height := rfl

@[simp] lemma drawRect_width (img : GelImage) (x1 y1 x2 y2 : Nat)
    (c : Nat × Nat × Nat) : (drawRect img x1 y1 x2 y2 c).width = img.width := rfl

@[simp] lemma drawRect_channels (img : GelImage) (x1 y1 x2 y2 : Nat)
    (c : Nat × Nat × Nat) : (drawRect img x1 y1 x2 y2 c).channels = img.channels := rfl

@[simp] lemma putText_height (img : GelImage) (t : String) (o : Nat × Nat) :
    (putText img t o).height = img.height := rfl

@[simp] lemma putText_width (img : GelImage) (t : String) (o : Nat × Nat) :
    (putText img t o).width = img.width := rfl

@[simp] lemma putText_channels (img : GelImage) (t : String) (o : Nat × Nat) :
    (putText img t o).channels = img.channels := rfl

@[simp] lemma foldl_drawBand_height (m : Nat) (l : List (Nat × List Char)) :
    ∀ img : GelImage, (List.foldl (drawBand m) img l).height = img.height := by
  induction l with
  | nil => intro img; rfl
  | cons p ps ih => intro img; exact ih (drawBand m img p)

@[simp] lemma foldl_drawBand_width (m : Nat) (l : List (Nat × List Char)) :
    ∀ img : GelImage, (List.foldl (drawBand m) img l).width = img.width := by
  induction l with
  | nil => intro img; rfl
  | cons p ps ih => intro img; exact ih (drawBand m img p)

@[simp] lemma foldl_drawBand_channels (m : Nat) (l : List (Nat × List Char)) :
    ∀ img : GelImage, (List.foldl (drawBand m) img l).channels = img.channels := by
  induction l with
  | nil => intro img; rfl
  | cons p ps ih => intro img; exact ih (drawBand m img p)

@[simp] lemma foldl_drawLadderBand_height (l : List (Nat × Nat)) :
    ∀ img : GelImage, (List.foldl drawLadderBand img l).height = img.height := by
  induction l with
  | nil => intro img; rfl
  | cons p ps ih => intro img; exact ih (drawLadderBand img p)

@[simp] lemma foldl_drawLadderBand_width (l : List (Nat × Nat)) :
    ∀ img : GelImage, (List.foldl drawLadderBand img l).width = img.width := by
  induction l with
  | nil => intro img; rfl
  | cons p ps ih => intro img; exact ih (drawLadderBand img p)

@[simp] lemma foldl_drawLadderBand_channels (l : List (Nat × Nat)) :
    ∀ img : GelImage, (List.foldl drawLadderBand img l).channels = img.channels := by
  induction l with
  | nil => intro img; rfl
  | cons p ps ih => intro img; exact ih (drawLadderBand img p)

lemma le_foldl_max (l : List Nat) : ∀ acc : Nat, acc ≤ l.foldl Nat.max acc := by
  induction l with
  | nil => intro acc; exact Nat.le_refl acc
  | cons a as ih =>
    intro acc
    exact le_trans (Nat.le_max_left acc a) (ih (Nat.max acc a))

lemma mem_le_foldl_max {x : Nat} {l : List Nat} (h : x ∈ l) :
    ∀ acc : Nat, x ≤ l.foldl Nat.max acc := by
  induction l with
  | nil => cases h
  | cons a as ih =>
    intro acc
    rcases List.mem_cons.mp h with rfl | h
    · exact le_trans (Nat.le_max_right acc x) (le_foldl_max as _)
    · exact ih h (Nat.max acc a)

lemma generate_gel_image_dims {fragments : List (List Char)}
    (enzymes : List String) (ladder : List Nat)
    (hf : ∀ f ∈ fragments, f ≠ []) :
    gelDims (generate_gel_image fragments enzymes ladder) = some (600, 400, 3) := by
  unfold generate_gel_image
  cases fragments with
  | nil => simp [gelDims, blankCanvas]
  | cons f fs =>
    have hM : ¬ ((f :: fs).map List.length).foldl Nat.max 0 = 0 := by
      have h1 : f.length ∈ (f :: fs).map List.length :=
        List.mem_map.mpr ⟨f, List.mem_cons_self f fs, rfl⟩
      have h2 := mem_le_foldl_max h1 0
      have h3 : f ≠ [] := hf f (List.mem_cons_self f fs)
      have h4 : 0 < f.length := List.length_pos.mpr h3
      omega
    simp only [List.isEmpty_cons, Bool.false_eq_true, if_false, if_neg hM]
    simp [gelDims, blankCanvas]

/-- C7: for every fragment list (of any size, including empty — fragments
being, per the data model, non-empty substrings) and every enzyme list,
the gel image produced by the renderer is exactly 600 pixels wide by 400
pixels tall with 3 channels; no fragment count changes the canvas
dimensions or causes a failure. -/
theorem C7_gel_dimensions (fragments : List (List Char)) (enzymes : List String)
    (hf : ∀ f ∈ fragments, f ≠ []) :
    gelDims (generate_gel_image fragments enzymes DNA_LADDER) = some (600, 400, 3) :=
  generate_gel_image_dims enzymes DNA_LADDER hf

/-- Witness for C7 at a one-fragment list. -/
theorem C7_gel_dimensions_witness :
    gelDims (generate_gel_image [['A']] ["EcoRI"] DNA_LADDER) = some (600, 400, 3) :=
  C7_gel_dimensions [['A']] ["EcoRI"] (by decide)

lemma cut_dna_no_empty {s : List Char} {E : List String} {f : List Char}
    (h : f ∈ cut_dna s E) : f ≠ [] := by
  unfold cut_dna at h
  rw [mem_stableSort] at h
  unfold fragments_of at h
  rw [List.mem_filter] at h
  intro hnil
  rw [hnil] at h
  simp at h

lemma generate_gel_image_of_cut_isSome (dna : List Char) (enzymes : List String) :
    ∃ img, generate_gel_image (cut_dna dna enzymes) enzymes DNA_LADDER = some img := by
  have hd := generate_gel_image_dims enzymes DNA_LADDER
    (fun f hf => cut_dna_no_empty (s := dna) (E := enzymes) hf)
  cases hgen : generate_gel_image (cut_dna dna enzymes) enzymes DNA_LADDER with
  | none => rw [hgen] at hd; simp [gelDims] at hd
  | some img => exact ⟨img, rfl⟩

/-! ## Helper lemmas: request handler -/

lemma simulate_reduces (req : SimRequest) (oracle : Nat → GenChoice) (now : String)
    (hseq : normalizeSeq req = [] ∨ validSeq (normalizeSeq req) = true) :
    simulate_fingerprint req oracle now
      = digestAndRender (usedSeq req oracle) (normEnzymes req) now := by
  by_cases h0 : (normalizeSeq req).isEmpty
  · simp only [simulate_fingerprint, usedSeq, h0]
    simp
  · have h1 : validSeq (normalizeSeq req) = true := by
      rcases hseq with h1 | h1
      · exact absurd (by rw [h1]; rfl) h0
      · exact h1
    simp only [simulate_fingerprint, usedSeq, h0, h1]
    simp

lemma digestAndRender_invalid {enzymes : List String} (dna : List Char)
    (now : String) (h : invalidEnzymesOf enzymes ≠ []) :
    digestAndRender dna enzymes now
      = { result := SimResult.err 400 ("Invalid enzymes: "
            ++ String.intercalate ", " (invalidEnzymesOf enzymes))
          writes := [] } := by
  simp only [digestAndRender]
  have h' : (invalidEnzymesOf enzymes).isEmpty = false := by
    cases hE : invalidEnzymesOf enzymes with
    | nil => exact absurd hE h
    | cons a as => rfl
  rw [h']
  rfl

lemma digestAndRender_valid {enzymes : List String} (dna : List Char)
    (now : String) (h : invalidEnzymesOf enzymes = []) (img : GelImage)
    (hgen : generate_gel_image (cut_dna dna enzymes) enzymes DNA_LADDER = some img) :
    digestAndRender dna enzymes now
      = { result := SimResult.ok
            { dna_sequence := dna
              fragments := cut_dna dna enzymes
              gel_image := gel_filename now
              enzyme_used := enzymes
              ladder_sizes := DNA_LADDER }
          writes := [(gel_filename now, img)] } := by
  simp only [digestAndRender]
  rw [h]
  simp only [List.isEmpty_nil, Bool.not_true, Bool.false_eq_true, if_false]
  rw [hgen]

/-- C6 counterexample: the request `{dna_sequence: "AXGT", enzyme: "Foo"}`
has an unrecognized enzyme in its normalized enzyme list, yet the handler
returns the `InvalidSequence` error (the sequence is validated first),
not an `InvalidEnzyme` error naming "Foo". -/
theorem C6_counterexample :
    invalidEnzymesOf (normEnzymes reqBadSeqBadEnz) = ["Foo"] ∧
    (simulate_fingerprint reqBadSeqBadEnz defaultOracle "t").result
      = SimResult.err 400 "Invalid DNA sequence (only A, T, G, C allowed)" ∧
    (simulate_fingerprint reqBadSeqBadEnz defaultOracle "t").result
      ≠ SimResult.err 400 "Invalid enzymes: Foo" := by
  decide

/-- C6 (amended): for every request that passes the sequence check
(normalized sequence empty, hence generated, or made only of A/T/G/C):
if the normalized enzyme list contains a name not in the table, the
handler returns a 400 `InvalidEnzyme` error listing exactly the
unrecognized names and writes no file; if every name is in the table, it
proceeds to a success response. -/
theorem C6_invalid_enzymes (req : SimRequest) (oracle : Nat → GenChoice)
    (now : String)
    (hseq : normalizeSeq req = [] ∨ validSeq (normalizeSeq req) = true) :
    (invalidEnzymesOf (normEnzymes req) ≠ [] →
      (simulate_fingerprint req oracle now).result
        = SimResult.err 400 ("Invalid enzymes: "
            ++ String.intercalate ", " (invalidEnzymesOf (normEnzymes req))) ∧
      (simulate_fingerprint req oracle now).writes = []) ∧
    (invalidEnzymesOf (normEnzymes req) = [] →
      (simulate_fingerprint req oracle now).result.isOk = true) := by
  rw [simulate_reduces req oracle now hseq]
  constructor
  · intro hne
    rw [digestAndRender_invalid (usedSeq req oracle) now hne]
    exact ⟨rfl, rfl⟩
  · intro heq
    obtain ⟨img, hgen⟩ :=
      generate_gel_image_of_cut_isSome (usedSeq req oracle) (normEnzymes req)
    rw [digestAndRender_valid (usedSeq req oracle) now heq img hgen]
    rfl

/-- Witness for C6 (amended): valid sequence "AT", invalid enzyme "Foo". -/
theorem C6_invalid_enzymes_witness :
    (simulate_fingerprint reqGoodSeqBadEnz defaultOracle "20250101").result
      = SimResult.err 400 "Invalid enzymes: Foo" ∧
    (simulate_fingerprint reqGoodSeqBadEnz defaultOracle "20250101").writes = [] := by
  have h := (C6_invalid_enzymes reqGoodSeqBadEnz defaultOracle "20250101"
    (Or.inr (by decide))).1 (by decide)
  exact ⟨by rw [h.1]; decide, h.2⟩

/-- C9 counterexample: a request omitting the `enzyme` field but carrying
an invalid sequence is rejected with the `InvalidSequence` error; no
success response with `enzyme_used = ["EcoRI"]` is produced. -/
theorem C9_counterexample :
    reqBadSeqNoEnz.enzyme = none ∧
    (simulate_fingerprint reqBadSeqNoEnz defaultOracle "t").result
      = SimResult.err 400 "Invalid DNA sequence (only A, T, G, C allowed)" ∧
    (simulate_fingerprint reqBadSeqNoEnz defaultOracle "t").result.isOk = false := by
  decide

/-- C9 (amended): if the request omits the `enzyme` field and its
sequence passes the sequence check (empty, hence generated, or valid),
the handler defaults to `["EcoRI"]`: enzyme validation passes, digestion
runs with `["EcoRI"]`, and the success response reports
`enzyme_used = ["EcoRI"]`. -/
theorem C9_default_enzyme (req : SimRequest) (oracle : Nat → GenChoice)
    (now : String) (he : req.enzyme = none)
    (hseq : normalizeSeq req = [] ∨ validSeq (normalizeSeq req) = true) :
    (simulate_fingerprint req oracle now).result
      = SimResult.ok
          { dna_sequence := usedSeq req oracle
            fragments := cut_dna (usedSeq req oracle) ["EcoRI"]
            gel_image := gel_filename now
            enzyme_used := ["EcoRI"]
            ladder_sizes := DNA_LADDER } := by
  have hE : normEnzymes req = ["EcoRI"] := by
    unfold normEnzymes
    rw [he]
    rfl
  rw [simulate_reduces req oracle now hseq, hE]
  obtain ⟨img, hgen⟩ :=
    generate_gel_image_of_cut_isSome (usedSeq req oracle) ["EcoRI"]
  rw [digestAndRender_valid (usedSeq req oracle) now (by decide) img hgen]

/-- Witness for C9 (amended): request `{dna_sequence: "AT"}`. -/
theorem C9_default_enzyme_witness :
    (simulate_fingerprint reqGoodSeqNoEnz defaultOracle "x").result
      = SimResult.ok
          { dna_sequence := ['A', 'T']
            fragments := [['A', 'T']]
            gel_image := "gel_x.png"
            enzyme_used := ["EcoRI"]
            ladder_sizes := [1000, 500, 200, 100, 50] } := by
  have h := C9_default_enzyme reqGoodSeqNoEnz defaultOracle "x" rfl (Or.inr (by decide))
  rw [h]
  decide

lemma digestAndRender_err_writes {dna : List Char} {enzymes : List String}
    {now : String} {status : Nat} {msg : String}
    (h : (digestAndRender dna enzymes now).result = SimResult.err status msg) :
    (digestAndRender dna enzymes now).writes = [] := by
  cases hE : invalidEnzymesOf enzymes with
  | cons a as =>
    rw [digestAndRender_invalid dna now (by rw [hE]; exact List.cons_ne_nil a as)]
  | nil =>
    obtain ⟨img, hgen⟩ := generate_gel_image_of_cut_isSome dna enzymes
    rw [digestAndRender_valid dna now hE img hgen] at h
    simp at h

/-- C10: whenever the handler returns a 400 validation error (invalid
sequence or invalid enzymes), no gel image file is written: the write log
of the request is empty, so the output directory is left unchanged. -/
theorem C10_error_no_writes (req : SimRequest) (oracle : Nat → GenChoice)
    (now : String) (status : Nat) (msg : String)
    (h : (simulate_fingerprint req oracle now).result = SimResult.err status msg) :
    (simulate_fingerprint req oracle now).writes = [] := by
  by_cases h0 : (normalizeSeq req).isEmpty
  · have hred : simulate_fingerprint req oracle now
        = digestAndRender (generate_dna_sequence (req.length.getD 100) oracle)
            (normEnzymes req) now := by
      simp only [simulate_fingerprint, h0]
      simp
    rw [hred] at h ⊢
    exact digestAndRender_err_writes h
  · by_cases hv : validSeq (normalizeSeq req) = true
    · have hred : simulate_fingerprint req oracle now
          = digestAndRender (normalizeSeq req) (normEnzymes req) now := by
        simp only [simulate_fingerprint, h0, hv]
        simp
      rw [hred] at h ⊢
      exact digestAndRender_err_writes h
    · have hv' : validSeq (normalizeSeq req) = false := by
        cases hb : validSeq (normalizeSeq req)
        · rfl
        · exact absurd hb hv
      have hred : simulate_fingerprint req oracle now
          = { result := SimResult.err 400 "Invalid DNA sequence (only A, T, G, C allowed)"
              writes := [] } := by
        simp only [simulate_fingerprint, h0, hv']
        simp
      rw [hred]

/-- Witness for C10: the invalid-sequence request `{dna_sequence: "XY"}`. -/
theorem C10_error_no_writes_witness :
    (simulate_fingerprint reqBadSeqXY defaultOracle "t").writes = [] :=
  C10_error_no_writes reqBadSeqXY defaultOracle "t" 400
    "Invalid DNA sequence (only A, T, G, C allowed)" (by decide)
